import Mathlib

/-!
Shallow embedding of the derived-metrics computation layer of the
wallet-whisper personal-finance application, together with theorems
settling the specification's claims about it.

Sources embedded:
- `calculateSummary` (FinanceTracker.tsx)
- `ExpenseChart.chartData` / `dataWithPercentages` (pie-chart component)
- `BudgetManager.budgetAnalysis` (budget component)
- `getProgressPercentage`, `updateGoalProgress` (FinancialGoals.tsx)
- `TrendChart.chartData` (trend-chart component)

Numbers are modelled as rationals.  The one place where JavaScript's
IEEE-754 semantics is observable in these functions is division by zero
(`x / 0` is `Infinity`, `-Infinity` or `NaN` rather than a rational), so
division results flow through the small `JsNum` type which marks those
non-finite outcomes explicitly; everywhere else the arithmetic performed
by the source stays inside the rationals.  Date strings (`yyyy-MM-dd`)
are compared exactly as JavaScript compares them: by `===`, by
`startsWith`, and lexicographically by `<=`; the list-based comparison
functions below implement that lexicographic order over the strings'
characters.
-/

namespace Wallet

/-- Lexicographic `<=` on character lists, modelling the JavaScript string
comparison used on `yyyy-MM-dd` date strings in `budgetAnalysis`. -/
def chLe : List Char → List Char → Bool
  | [], _ => true
  | _ :: _, [] => false
  | a :: as, b :: bs => if a = b then chLe as bs else decide (a < b)

/-- JavaScript `a <= b` on strings (lexicographic by character). -/
def strLe (a b : String) : Bool := chLe a.data b.data

/-- Helper for `strStarts`: does the second list start with the first? -/
def chPre : List Char → List Char → Bool
  | [], _ => true
  | _ :: _, [] => false
  | a :: as, b :: bs => a = b && chPre as bs

/-- JavaScript `s.startsWith(p)`. -/
def strStarts (s p : String) : Bool := chPre p.data s.data

/-- Transaction kind, the `type` field of the `Transaction` interface. -/
inductive TxType
  | income
  | expense
deriving DecidableEq, Repr

/-- The `Transaction` record (FinanceTracker.tsx and the chart components):
`{ date, category, amount, type }`.  `id` and `description` play no role in
the metrics computations and are omitted. -/
structure Transaction where
  date : String
  category : String
  amount : ℚ
  type : TxType
deriving DecidableEq, Repr

/-- Result of a JavaScript floating-point division: either a finite value
or one of the non-finite IEEE-754 outcomes `Infinity`, `-Infinity`, `NaN`
that arise from dividing by zero. -/
inductive JsNum
  | num (q : ℚ)
  | posInf
  | negInf
  | nan
deriving DecidableEq, Repr

/-- JavaScript division `a / b`: finite when `b ≠ 0`, otherwise
`Infinity`/`-Infinity`/`NaN` according to the sign of `a`. -/
def jsDiv (a b : ℚ) : JsNum :=
  if b = 0 then
    if 0 < a then JsNum.posInf else if a < 0 then JsNum.negInf else JsNum.nan
  else JsNum.num (a / b)

/-- Multiplication of a JavaScript division result by the positive literal
`100`, as in `(spent / limit) * 100`; non-finite values are preserved. -/
def jsMul100 : JsNum → JsNum
  | JsNum.num q => JsNum.num (q * 100)
  | JsNum.posInf => JsNum.posInf
  | JsNum.negInf => JsNum.negInf
  | JsNum.nan => JsNum.nan

/-- JavaScript comparison `x > q` against a finite literal: `Infinity > q`
is true, `-Infinity > q` and `NaN > q` are false. -/
def jsGtB (x : JsNum) (q : ℚ) : Bool :=
  match x with
  | JsNum.num a => decide (q < a)
  | JsNum.posInf => true
  | JsNum.negInf => false
  | JsNum.nan => false

/-- JavaScript `Math.min(x, q)` with a finite second argument:
`Math.min(NaN, q) = NaN`, `Math.min(Infinity, q) = q`. -/
def jsMin (x : JsNum) (q : ℚ) : JsNum :=
  match x with
  | JsNum.num a => JsNum.num (min a q)
  | JsNum.posInf => JsNum.num q
  | JsNum.negInf => JsNum.negInf
  | JsNum.nan => JsNum.nan

/-! ## calculateSummary (FinanceTracker.tsx) -/

/-- Output shape of `calculateSummary`. -/
structure Summary where
  income : ℚ
  expenses : ℚ
  balance : ℚ
deriving DecidableEq, Repr

/-- The `calculateSummary` closure of FinanceTracker.tsx.  The source
reads the current month string (`format(new Date(), 'yyyy-MM')`) from the
clock; here it is the explicit `currentMonth` parameter. -/
def calculateSummary (currentMonth : String) (transactions : List Transaction) : Summary :=
  let monthTransactions := transactions.filter (fun t => strStarts t.date currentMonth)
  let income := (monthTransactions.filter (fun t => t.type = TxType.income)).foldl
    (fun sum t => sum + t.amount) 0
  let expenses := (monthTransactions.filter (fun t => t.type = TxType.expense)).foldl
    (fun sum t => sum + t.amount) 0
  { income := income, expenses := expenses, balance := income - expenses }

/-! ## ExpenseChart (pie-chart component) -/

/-- One entry of the pie chart's data: `{ category, amount, percentage }`.
The source stores `percentage` as a decimal string produced by
`.toFixed(1)` (or the string `'0'`); we model that string by its numeric
value, a rational with denominator dividing 10. -/
structure CatEntry where
  category : String
  amount : ℚ
  percentage : ℚ
deriving DecidableEq, Repr

/-- One step of the `reduce` in `ExpenseChart.chartData`:
`acc[t.category] = (acc[t.category] || 0) + t.amount`, on an association
list kept in JavaScript object insertion order. -/
def upsertTotal : List (String × ℚ) → String → ℚ → List (String × ℚ)
  | [], c, a => [(c, a)]
  | (c', a') :: rest, c, a =>
    if c' = c then (c', a' + a) :: rest else (c', a') :: upsertTotal rest c a

/-- The `categoryTotals` object of `ExpenseChart.chartData`, as an
association list in insertion order (`Object.entries` order). -/
def categoryTotals (ts : List Transaction) : List (String × ℚ) :=
  ts.foldl (fun acc t => upsertTotal acc t.category t.amount) []

/-- The `monthExpenses` filter of `ExpenseChart.chartData`:
expense transactions whose date starts with the current `yyyy-MM` month. -/
def monthExpenses (transactions : List Transaction) (currentMonth : String) : List Transaction :=
  transactions.filter (fun t => t.type = TxType.expense && strStarts t.date currentMonth)

/-- Ordering used by the chart's `.sort((a, b) => b.amount - a.amount)`:
descending by amount. -/
def entryGe (a b : CatEntry) : Prop := b.amount ≤ a.amount

instance : DecidableRel entryGe := fun a b => inferInstanceAs (Decidable (b.amount ≤ a.amount))

instance : IsTotal CatEntry entryGe := ⟨fun a b => le_total b.amount a.amount⟩

instance : IsTrans CatEntry entryGe := ⟨fun _ _ _ h h' => le_trans h' h⟩

/-- `ExpenseChart.chartData`: per-category totals of the current month's
expenses, mapped to entries with `percentage: 0`, sorted descending by
amount (JavaScript's stable `Array.prototype.sort`, modelled by the stable
`insertionSort`) and truncated to the first 6 entries. -/
def chartData (transactions : List Transaction) (currentMonth : String) : List CatEntry :=
  (List.insertionSort entryGe
    ((categoryTotals (monthExpenses transactions currentMonth)).map
      (fun p => CatEntry.mk p.1 p.2 0))).take 6

/-- The `totalAmount` reduce of ExpenseChart: sum of the (already
truncated) chart entries' amounts. -/
def totalAmount (data : List CatEntry) : ℚ :=
  data.foldl (fun sum item => sum + item.amount) 0

/-- Numeric value of JavaScript's `x.toFixed(1)` for the non-negative
values arising here: round to one decimal digit, ties away from zero. -/
def toFixed1 (q : ℚ) : ℚ := (Rat.floor (q * 10 + 1 / 2) : ℚ) / 10

/-- `dataWithPercentages` of ExpenseChart: each chart entry annotated with
`percentage = (amount / totalAmount * 100).toFixed(1)` when
`totalAmount > 0`, and `'0'` otherwise.  `totalAmount` is the sum over the
truncated `chartData`, not over all of the month's expenses. -/
def dataWithPercentages (transactions : List Transaction) (currentMonth : String) : List CatEntry :=
  let data := chartData transactions currentMonth
  let total := totalAmount data
  data.map (fun item =>
    { item with percentage := if 0 < total then toFixed1 (item.amount / total * 100) else 0 })

/-! ## BudgetManager (budget component) -/

/-- Budget period, the `period` field of the `Budget` interface. -/
inductive Period
  | monthly
  | weekly
deriving DecidableEq, Repr

/-- The `Budget` record: `{ id, category, limit_amount, period,
start_date, end_date }`.  The database schema enforces
`CHECK (limit_amount > 0)`. -/
structure Budget where
  id : String
  category : String
  limit_amount : ℚ
  period : Period
  start_date : String
  end_date : String
deriving DecidableEq, Repr

/-- One element of the `budgetAnalysis` array: the budget spread together
with the derived fields.  `percentage` is a `JsNum` because the source
divides by `limit_amount` without guarding against zero. -/
structure BudgetResult where
  budget : Budget
  spent : ℚ
  remaining : ℚ
  percentage : JsNum
  isOverBudget : Bool
  isNearLimit : Bool
deriving DecidableEq, Repr

/-- Body of the `budgets.map` inside `budgetAnalysis` (BudgetManager):
filter the expense transactions of the budget's category inside its
inclusive date range, sum them, and derive percentage/remaining/flags. -/
def analyzeBudget (transactions : List Transaction) (budget : Budget) : BudgetResult :=
  let spent := (transactions.filter (fun t =>
      t.type = TxType.expense &&
      t.category = budget.category &&
      strLe budget.start_date t.date &&
      strLe t.date budget.end_date)).foldl (fun sum t => sum + t.amount) 0
  let percentage := jsMul100 (jsDiv spent budget.limit_amount)
  let remaining := budget.limit_amount - spent
  let isOverBudget := decide (budget.limit_amount < spent)
  let isNearLimit := jsGtB percentage 80 && !isOverBudget
  { budget := budget, spent := spent, remaining := remaining, percentage := percentage,
    isOverBudget := isOverBudget, isNearLimit := isNearLimit }

/-- The `budgetAnalysis` memo of BudgetManager. -/
def budgetAnalysis (budgets : List Budget) (transactions : List Transaction) : List BudgetResult :=
  budgets.map (analyzeBudget transactions)

/-! ## FinancialGoals -/

/-- The `FinancialGoal` record: `{ id, title, target_amount,
current_amount, is_completed }` (`deadline`/`category` omitted, they play
no role in progress computation or mutation).  The database schema
enforces `CHECK (target_amount > 0)` and `CHECK (current_amount >= 0)`. -/
structure FinancialGoal where
  id : String
  title : String
  target_amount : ℚ
  current_amount : ℚ
  is_completed : Bool
deriving DecidableEq, Repr

/-- `getProgressPercentage` of FinancialGoals.tsx:
`Math.min((current_amount / target_amount) * 100, 100)`. -/
def getProgressPercentage (goal : FinancialGoal) : JsNum :=
  jsMin (jsMul100 (jsDiv goal.current_amount goal.target_amount)) 100

/-- `updateGoalProgress` of FinancialGoals.tsx as a pure function on the
goal list: look up the goal by id (`goals.find`); if absent return the
list unchanged (the source returns before issuing any write); otherwise
compute `newAmount = Math.max(0, current_amount + amount)` and
`isCompleted = newAmount >= target_amount` and write both fields in one
update to every row whose id matches. -/
def updateGoalProgress (goals : List FinancialGoal) (goalId : String) (amount : ℚ) :
    List FinancialGoal :=
  match goals.find? (fun g => g.id = goalId) with
  | none => goals
  | some goal =>
    let newAmount := max 0 (goal.current_amount + amount)
    let isCompleted := decide (goal.target_amount ≤ newAmount)
    goals.map (fun g =>
      if g.id = goalId then
        { g with current_amount := newAmount, is_completed := isCompleted }
      else g)

/-! ## TrendChart (30-day trend component) -/

/-- Two-digit zero padding, as in the `dd`/`MM` tokens of `format`. -/
def pad2 (n : ℕ) : String := if n < 10 then "0" ++ toString n else toString n

/-- Four-digit zero padding, as in the `yyyy` token of `format`. -/
def pad4 (n : ℕ) : String :=
  if n < 10 then "000" ++ toString n
  else if n < 100 then "00" ++ toString n
  else if n < 1000 then "0" ++ toString n
  else toString n

/-- Gregorian calendar date `(year, month, day)` of the day `z` days after
1970-01-01 (the civil-from-days algorithm used by date libraries). -/
def civilFromDays (z : ℤ) : ℤ × ℤ × ℤ :=
  let z' := z + 719468
  let era := Int.fdiv z' 146097
  let doe := z' - era * 146097
  let yoe := Int.fdiv (doe - Int.fdiv doe 1460 + Int.fdiv doe 36524 - Int.fdiv doe 146096) 365
  let y := yoe + era * 400
  let doy := doe - (365 * yoe + Int.fdiv yoe 4 - Int.fdiv yoe 100)
  let mp := Int.fdiv (5 * doy + 2) 153
  let d := doy - Int.fdiv (153 * mp + 2) 5 + 1
  let m := mp + (if mp < 10 then 3 else -9)
  (y + (if m ≤ 2 then 1 else 0), m, d)

/-- The `format(date, 'yyyy-MM-dd')` string of the calendar day numbered
`z` (days since 1970-01-01). -/
def fmtDay (z : ℤ) : String :=
  let c := civilFromDays z
  pad4 c.1.toNat ++ "-" ++ pad2 c.2.1.toNat ++ "-" ++ pad2 c.2.2.toNat

/-- The `format(date, 'dd.MM')` display string of calendar day `z`. -/
def fmtDisplay (z : ℤ) : String :=
  let c := civilFromDays z
  pad2 c.2.2.toNat ++ "." ++ pad2 c.2.1.toNat

/-- One element of `TrendChart.chartData`:
`{ date, displayDate, income, expenses, balance }`. -/
structure Bucket where
  date : String
  displayDate : String
  income : ℚ
  expenses : ℚ
  balance : ℚ
deriving DecidableEq, Repr

/-- Body of the `Array.from` callback in `TrendChart.chartData` for the
calendar day numbered `day`: filter the transactions of that day, sum
income and expenses, and derive the balance. -/
def dayBucket (transactions : List Transaction) (day : ℤ) : Bucket :=
  let dateStr := fmtDay day
  let dayTransactions := transactions.filter (fun t => t.date = dateStr)
  let income := (dayTransactions.filter (fun t => t.type = TxType.income)).foldl
    (fun sum t => sum + t.amount) 0
  let expenses := (dayTransactions.filter (fun t => t.type = TxType.expense)).foldl
    (fun sum t => sum + t.amount) 0
  { date := dateStr, displayDate := fmtDisplay day, income := income, expenses := expenses,
    balance := income - expenses }

/-- `TrendChart.chartData`: one bucket per day of the 30-day window ending
on `today` (`startOfDay(subDays(new Date(), 29 - i))` for `i = 0 .. 29`),
in ascending day order.  The source reads `new Date()` from the clock;
here `today` is the explicit day number of the reference day. -/
def trendChartData (today : ℤ) (transactions : List Transaction) : List Bucket :=
  (List.range 30).map (fun i : ℕ => dayBucket transactions (today - 29 + (i : ℤ)))

/-! ## Specification-side formulations

The following definitions restate the aggregations the way the
specification phrases them — a single filter with a conjunctive predicate
followed by `map`/`sum` — to be compared against the fold/filter-chain
code above. -/

/-- Expense transactions of the month, phrased as one conjunctive filter. -/
def specMonthExpenses (ts : List Transaction) (month : String) : List Transaction :=
  ts.filter (fun t => decide (t.type = TxType.expense ∧ strStarts t.date month = true))

/-- Total expense amount of the month over one category (the
specification's per-category expense total). -/
def specCatTotal (ts : List Transaction) (month c : String) : ℚ :=
  ((specMonthExpenses ts month).filter (fun t => t.category = c)).map Transaction.amount |>.sum

/-- Income of the period: sum of amounts of income transactions dated in
the month. -/
def specPeriodIncome (month : String) (ts : List Transaction) : ℚ :=
  ((ts.filter (fun t => decide (strStarts t.date month = true ∧ t.type = TxType.income))).map
    Transaction.amount).sum

/-- Expenses of the period: sum of amounts of expense transactions dated
in the month. -/
def specPeriodExpenses (month : String) (ts : List Transaction) : ℚ :=
  ((ts.filter (fun t => decide (strStarts t.date month = true ∧ t.type = TxType.expense))).map
    Transaction.amount).sum

/-- The specification's `spent` for a budget: sum of amounts of expense
transactions of the budget's category dated inside the inclusive range. -/
def specSpent (b : Budget) (ts : List Transaction) : ℚ :=
  ((ts.filter (fun t => decide (t.type = TxType.expense ∧ t.category = b.category ∧
    strLe b.start_date t.date = true ∧ strLe t.date b.end_date = true))).map
    Transaction.amount).sum

/-- Income of one calendar day (by its date string). -/
def specDayIncome (ts : List Transaction) (d : String) : ℚ :=
  ((ts.filter (fun t => decide (t.date = d ∧ t.type = TxType.income))).map
    Transaction.amount).sum

/-- Expenses of one calendar day (by its date string). -/
def specDayExpenses (ts : List Transaction) (d : String) : ℚ :=
  ((ts.filter (fun t => decide (t.date = d ∧ t.type = TxType.expense))).map
    Transaction.amount).sum

/-! ## Helper lemmas -/

/-- The `reduce((sum, t) => sum + t.amount, 0)` folds are sums of the
mapped amounts. -/
theorem foldl_amount (l : List Transaction) (i : ℚ) :
    l.foldl (fun sum t => sum + t.amount) i = i + (l.map Transaction.amount).sum := by
  induction l generalizing i with
  | nil => simp
  | cons t rest ih => simp [List.foldl_cons, ih]; ring

/-- Same fold lemma for chart entries (the `totalAmount` reduce). -/
theorem foldl_entry_amount (l : List CatEntry) (i : ℚ) :
    l.foldl (fun sum item => sum + item.amount) i = i + (l.map CatEntry.amount).sum := by
  induction l generalizing i with
  | nil => simp
  | cons e rest ih => simp [List.foldl_cons, ih]; ring

/-! ## Claim C2 -/

/-- C2: the claim says a zero `limitAmount`/`targetAmount` is special-cased
to `percentage = 0` and never yields NaN or infinity.  The code has no such
special case: with `limit_amount = 0` and one in-range expense of 100 the
budget percentage is `Infinity`, and a goal with `target_amount = 0` and
`current_amount = 0` yields `NaN`; neither equals the finite value 0. -/
theorem C2_code_divergence :
    (analyzeBudget [Transaction.mk "2024-05-15" "food" 100 TxType.expense]
        (Budget.mk "b1" "food" 0 Period.monthly "2024-05-01" "2024-05-31")).percentage
      = JsNum.posInf ∧
    getProgressPercentage (FinancialGoal.mk "g1" "vacation" 0 0 false) = JsNum.nan ∧
    JsNum.posInf ≠ JsNum.num 0 ∧ JsNum.nan ≠ JsNum.num 0 := by
  refine ⟨by with_unfolding_all rfl, by with_unfolding_all rfl, by simp, by simp⟩

/-! ## Claim C4 -/

/-- C4: the budget utilization result satisfies `spent` = the sum of
amounts of expense transactions of the budget's category dated in the
inclusive range, `remaining = limitAmount - spent`, `percentage = spent /
limitAmount * 100`, and `isOverBudget ↔ spent > limitAmount`.  The
percentage clause uses the data-model invariant `limitAmount > 0`. -/
theorem C4_budget_utilization (b : Budget) (ts : List Transaction)
    (hpos : 0 < b.limit_amount) :
    (analyzeBudget ts b).spent = specSpent b ts ∧
    (analyzeBudget ts b).remaining = b.limit_amount - (analyzeBudget ts b).spent ∧
    (analyzeBudget ts b).percentage
      = JsNum.num ((analyzeBudget ts b).spent / b.limit_amount * 100) ∧
    ((analyzeBudget ts b).isOverBudget = true ↔ b.limit_amount < (analyzeBudget ts b).spent) := by
  have hfilter : ts.filter (fun t =>
      t.type = TxType.expense &&
      t.category = b.category &&
      strLe b.start_date t.date &&
      strLe t.date b.end_date)
      = ts.filter (fun t => decide (t.type = TxType.expense ∧ t.category = b.category ∧
        strLe b.start_date t.date = true ∧ strLe t.date b.end_date = true)) := by
    refine List.filter_congr ?_
    intro t _
    simp [Bool.and_assoc]
  refine ⟨?_, ?_, ?_, ?_⟩
  · simp only [analyzeBudget, specSpent, hfilter, foldl_amount, zero_add]
  · simp [analyzeBudget]
  · simp [analyzeBudget, jsDiv, hpos.ne', jsMul100]
  · simp [analyzeBudget]

/-- Witness for C4 at the specification's example: budget limit 800 for
category food, one food expense of 1000 inside the range. -/
theorem C4_budget_utilization_witness :
    (analyzeBudget [Transaction.mk "2024-05-01" "food" 1000 TxType.expense]
        (Budget.mk "b1" "food" 800 Period.monthly "2024-05-01" "2024-05-31")).spent
      = specSpent (Budget.mk "b1" "food" 800 Period.monthly "2024-05-01" "2024-05-31")
          [Transaction.mk "2024-05-01" "food" 1000 TxType.expense] ∧
    (analyzeBudget [Transaction.mk "2024-05-01" "food" 1000 TxType.expense]
        (Budget.mk "b1" "food" 800 Period.monthly "2024-05-01" "2024-05-31")).remaining
      = 800 - (analyzeBudget [Transaction.mk "2024-05-01" "food" 1000 TxType.expense]
          (Budget.mk "b1" "food" 800 Period.monthly "2024-05-01" "2024-05-31")).spent :=
  have h := C4_budget_utilization
    (Budget.mk "b1" "food" 800 Period.monthly "2024-05-01" "2024-05-31")
    [Transaction.mk "2024-05-01" "food" 1000 TxType.expense]
    (by norm_num)
  ⟨h.1, h.2.1⟩

/-! ## Claim C5 -/

/-- C5: `isNearLimit = (percentage > 80 AND NOT isOverBudget)`, and the
two flags are never both true.  Stated with the percentage written out as
`spent / limitAmount * 100` (finite because `limitAmount > 0`). -/
theorem C5_flags (b : Budget) (ts : List Transaction) (hpos : 0 < b.limit_amount) :
    (analyzeBudget ts b).isNearLimit
      = (decide (80 < (analyzeBudget ts b).spent / b.limit_amount * 100) &&
          !(analyzeBudget ts b).isOverBudget) ∧
    ¬((analyzeBudget ts b).isOverBudget = true ∧ (analyzeBudget ts b).isNearLimit = true) := by
  constructor
  · simp [analyzeBudget, jsDiv, hpos.ne', jsMul100, jsGtB]
  · rintro ⟨hov, hnear⟩
    have hdef : (analyzeBudget ts b).isNearLimit
        = (jsGtB (analyzeBudget ts b).percentage 80 && !(analyzeBudget ts b).isOverBudget) := rfl
    rw [hdef, hov] at hnear
    simp at hnear

/-- Witness for C5 at the specification's example: spent 1000 against
limit 800 gives `isOverBudget = true`, hence not `isNearLimit`. -/
theorem C5_flags_witness :
    ¬((analyzeBudget [Transaction.mk "2024-05-01" "food" 1000 TxType.expense]
        (Budget.mk "b1" "food" 800 Period.monthly "2024-05-01" "2024-05-31")).isOverBudget = true ∧
      (analyzeBudget [Transaction.mk "2024-05-01" "food" 1000 TxType.expense]
        (Budget.mk "b1" "food" 800 Period.monthly "2024-05-01" "2024-05-31")).isNearLimit = true) :=
  (C5_flags (Budget.mk "b1" "food" 800 Period.monthly "2024-05-01" "2024-05-31")
    [Transaction.mk "2024-05-01" "food" 1000 TxType.expense] (by norm_num)).2

/-! ## Claim C9 -/

/-- C9: for a goal with `targetAmount > 0` and `currentAmount ≥ 0`,
`progressPercentage = min(currentAmount / targetAmount * 100, 100)` and
that value lies in `[0, 100]`. -/
theorem C9_progress_percentage (g : FinancialGoal) (hT : 0 < g.target_amount)
    (hC : 0 ≤ g.current_amount) :
    getProgressPercentage g
      = JsNum.num (min (g.current_amount / g.target_amount * 100) 100) ∧
    0 ≤ min (g.current_amount / g.target_amount * 100) 100 ∧
    min (g.current_amount / g.target_amount * 100) 100 ≤ 100 := by
  refine ⟨?_, ?_, min_le_right _ _⟩
  · simp [getProgressPercentage, jsDiv, hT.ne', jsMul100, jsMin]
  · exact le_min (by positivity) (by norm_num)

/-- Witness for C9 at the specification's example goal: target 10000,
current 10500 (over the target), progress capped at 100. -/
theorem C9_progress_percentage_witness :
    getProgressPercentage (FinancialGoal.mk "g1" "vacation" 10000 10500 true)
      = JsNum.num (min ((10500 : ℚ) / 10000 * 100) 100) :=
  (C9_progress_percentage (FinancialGoal.mk "g1" "vacation" 10000 10500 true)
    (by norm_num) (by norm_num)).1

/-! ## Claim C10 -/

/-- C10: when no goal matches the id, the progress update performs no
mutation at all — the goal list is returned unchanged. -/
theorem C10_missing_goal (goals : List FinancialGoal) (goalId : String) (amount : ℚ)
    (h : goals.find? (fun g => g.id = goalId) = none) :
    updateGoalProgress goals goalId amount = goals := by
  simp [updateGoalProgress, h]

/-- Witness for C10: a one-goal list and an id that matches nothing. -/
theorem C10_missing_goal_witness :
    updateGoalProgress [FinancialGoal.mk "g1" "vacation" 100 0 false] "nope" 1000
      = [FinancialGoal.mk "g1" "vacation" 100 0 false] :=
  C10_missing_goal [FinancialGoal.mk "g1" "vacation" 100 0 false] "nope" 1000
    (by with_unfolding_all rfl)

/-! ## Claim C6 -/

/-- Sums of the amount fold over equally-filtered permuted lists agree. -/
theorem foldl_filter_perm (l l' : List Transaction) (hperm : l.Perm l')
    (p q : Transaction → Bool) :
    ((l.filter p).filter q).foldl (fun sum t => sum + t.amount) 0
      = ((l'.filter p).filter q).foldl (fun sum t => sum + t.amount) 0 := by
  rw [foldl_amount, foldl_amount, zero_add, zero_add]
  exact List.Perm.sum_eq (List.Perm.map _ (List.Perm.filter q (List.Perm.filter p hperm)))

/-- C6: the period summary's `income`/`expenses` are the sums of the
month's income/expense transaction amounts, `balance = income - expenses`
exactly, the summary is independent of the input order, and the empty
input yields all zeroes. -/
theorem C6_period_summary (month : String) (ts ts' : List Transaction) (hperm : ts.Perm ts') :
    (calculateSummary month ts).income = specPeriodIncome month ts ∧
    (calculateSummary month ts).expenses = specPeriodExpenses month ts ∧
    (calculateSummary month ts).balance
      = (calculateSummary month ts).income - (calculateSummary month ts).expenses ∧
    calculateSummary month ts = calculateSummary month ts' ∧
    calculateSummary month [] = { income := 0, expenses := 0, balance := 0 } := by
  have hfil : ∀ (l : List Transaction) (k : TxType),
      ((l.filter (fun t => strStarts t.date month)).filter (fun t => t.type = k))
        = l.filter (fun t => decide (strStarts t.date month = true ∧ t.type = k)) := by
    intro l k
    rw [List.filter_filter]
    exact List.filter_congr fun t _ => by simp [Bool.and_comm]
  refine ⟨?_, ?_, rfl, ?_, by with_unfolding_all rfl⟩
  · show ((ts.filter _).filter _).foldl _ 0 = _
    rw [hfil ts TxType.income, foldl_amount, zero_add, specPeriodIncome]
  · show ((ts.filter _).filter _).foldl _ 0 = _
    rw [hfil ts TxType.expense, foldl_amount, zero_add, specPeriodExpenses]
  · have hi := foldl_filter_perm ts ts' hperm (fun t => strStarts t.date month)
      (fun t => t.type = TxType.income)
    have he := foldl_filter_perm ts ts' hperm (fun t => strStarts t.date month)
      (fun t => t.type = TxType.expense)
    simp only [calculateSummary]
    rw [hi, he]

/-- Witness for C6 at the specification's example pair of transactions,
with the order-independence clause applied to the swapped list. -/
theorem C6_period_summary_witness :
    (calculateSummary "2024-05"
        [Transaction.mk "2024-05-01" "food" 1000 TxType.expense,
         Transaction.mk "2024-05-02" "salary" 5000 TxType.income]).income
      = specPeriodIncome "2024-05"
        [Transaction.mk "2024-05-01" "food" 1000 TxType.expense,
         Transaction.mk "2024-05-02" "salary" 5000 TxType.income] ∧
    calculateSummary "2024-05"
        [Transaction.mk "2024-05-01" "food" 1000 TxType.expense,
         Transaction.mk "2024-05-02" "salary" 5000 TxType.income]
      = calculateSummary "2024-05"
        [Transaction.mk "2024-05-02" "salary" 5000 TxType.income,
         Transaction.mk "2024-05-01" "food" 1000 TxType.expense] :=
  have h := C6_period_summary "2024-05"
    [Transaction.mk "2024-05-01" "food" 1000 TxType.expense,
     Transaction.mk "2024-05-02" "salary" 5000 TxType.income]
    [Transaction.mk "2024-05-02" "salary" 5000 TxType.income,
     Transaction.mk "2024-05-01" "food" 1000 TxType.expense]
    (List.Perm.swap _ _ _)
  ⟨h.1, h.2.2.2.1⟩

/-! ## Claim C7 -/

/-- Field-level description of one day's bucket against the
specification-side sums. -/
theorem dayBucket_fields (ts : List Transaction) (d : ℤ) :
    (dayBucket ts d).date = fmtDay d ∧
    (dayBucket ts d).income = specDayIncome ts (fmtDay d) ∧
    (dayBucket ts d).expenses = specDayExpenses ts (fmtDay d) ∧
    (dayBucket ts d).balance = (dayBucket ts d).income - (dayBucket ts d).expenses := by
  refine ⟨rfl, ?_, ?_, rfl⟩
  · show ((ts.filter _).filter _).foldl _ 0 = _
    rw [List.filter_filter, foldl_amount, zero_add, specDayIncome]
    refine congrArg _ (congrArg _ (List.filter_congr fun t _ => by simp [Bool.and_comm]))
  · show ((ts.filter _).filter _).foldl _ 0 = _
    rw [List.filter_filter, foldl_amount, zero_add, specDayExpenses]
    refine congrArg _ (congrArg _ (List.filter_congr fun t _ => by simp [Bool.and_comm]))

/-- C7: the time-series data has exactly 30 buckets, the `i`-th bucket is
the calendar day `today - 29 + i` (so the buckets cover the 30-day window
ending on `today` in chronologically ascending order, with a bucket for
every day whether or not it has transactions), its income/expenses sum
exactly the transactions dated that day, and `balance = income -
expenses`. -/
theorem C7_buckets (today : ℤ) (ts : List Transaction) :
    (trendChartData today ts).length = 30 ∧
    (∀ i, (h : i < (trendChartData today ts).length) →
      ((trendChartData today ts).get ⟨i, h⟩).date = fmtDay (today - 29 + i) ∧
      ((trendChartData today ts).get ⟨i, h⟩).income
        = specDayIncome ts (fmtDay (today - 29 + i)) ∧
      ((trendChartData today ts).get ⟨i, h⟩).expenses
        = specDayExpenses ts (fmtDay (today - 29 + i)) ∧
      ((trendChartData today ts).get ⟨i, h⟩).balance
        = ((trendChartData today ts).get ⟨i, h⟩).income
          - ((trendChartData today ts).get ⟨i, h⟩).expenses) := by
  refine ⟨by simp only [trendChartData, List.length_map, List.length_range], ?_⟩
  intro i h
  have hget : (trendChartData today ts).get ⟨i, h⟩ = dayBucket ts (today - 29 + i) := by
    simp only [trendChartData, List.get_eq_getElem, List.getElem_map, List.getElem_range]
  rw [hget]
  exact dayBucket_fields ts (today - 29 + i)

/-- Witness for C7: with the reference day 19858 (2024-05-15) and a single
transaction on that day, the last bucket (index 29) is that very day. -/
theorem C7_buckets_witness :
    ((trendChartData 19858 [Transaction.mk "2024-05-15" "food" 100 TxType.expense]).get
        ⟨29, by with_unfolding_all decide⟩).date = fmtDay (19858 - 29 + 29) ∧
    ((trendChartData 19858 [Transaction.mk "2024-05-15" "food" 100 TxType.expense]).get
        ⟨29, by with_unfolding_all decide⟩).income
      = specDayIncome [Transaction.mk "2024-05-15" "food" 100 TxType.expense]
          (fmtDay (19858 - 29 + 29)) :=
  have h := (C7_buckets 19858 [Transaction.mk "2024-05-15" "food" 100 TxType.expense]).2
    29 (by with_unfolding_all decide)
  ⟨h.1, h.2.1⟩

/-! ## Goal-mutation helper lemmas -/

/-- Any element of the id-conditional map that carries the searched id is
the image of an original element with that id, provided the update
function preserves ids. -/
theorem mem_update_map (goals : List FinancialGoal) (goalId : String)
    (F : FinancialGoal → FinancialGoal) (g' : FinancialGoal)
    (hmem : g' ∈ goals.map (fun g => if g.id = goalId then F g else g))
    (hid : g'.id = goalId) :
    ∃ g ∈ goals, g.id = goalId ∧ g' = F g := by
  rcases List.mem_map.mp hmem with ⟨g, hg, hfg⟩
  by_cases hcase : g.id = goalId
  · exact ⟨g, hg, hcase, by rw [← hfg, if_pos hcase]⟩
  · rw [if_neg hcase] at hfg
    rw [← hfg] at hid
    exact absurd hid hcase

/-- With pairwise-distinct ids, the goal returned by `find?` is the only
element carrying the searched id. -/
theorem find?_unique (goals : List FinancialGoal) (goalId : String) (goal : FinancialGoal)
    (hnod : (goals.map FinancialGoal.id).Nodup)
    (hfind : goals.find? (fun g => g.id = goalId) = some goal) :
    ∀ g ∈ goals, g.id = goalId → g = goal := by
  induction goals with
  | nil => simp at hfind
  | cons h t ih =>
    simp only [List.map_cons, List.nodup_cons] at hnod
    intro g hg hgid
    by_cases hh : h.id = goalId
    · rw [List.find?_cons_of_pos _ (by simpa using hh)] at hfind
      rcases List.mem_cons.mp hg with rfl | hgt
      · exact Option.some.inj hfind
      · exact absurd (List.mem_map.mpr ⟨g, hgt, hgid.trans hh.symm⟩) hnod.1
    · rw [List.find?_cons_of_neg _ (by simpa using hh)] at hfind
      rcases List.mem_cons.mp hg with rfl | hgt
      · exact absurd hgid hh
      · exact ih hnod.2 hfind g hgt hgid

/-- Looking up the searched id after the id-conditional map returns the
updated image of the goal `find?` returned before the map. -/
theorem find?_update_map (goals : List FinancialGoal) (goalId : String)
    (F : FinancialGoal → FinancialGoal) (hF : ∀ g, (F g).id = g.id) (goal : FinancialGoal)
    (hfind : goals.find? (fun g => g.id = goalId) = some goal) :
    (goals.map (fun g => if g.id = goalId then F g else g)).find? (fun g => g.id = goalId)
      = some (F goal) := by
  induction goals with
  | nil => simp at hfind
  | cons h t ih =>
    by_cases hh : h.id = goalId
    · rw [List.find?_cons_of_pos _ (by simpa using hh)] at hfind
      rw [List.map_cons, if_pos hh,
        List.find?_cons_of_pos _ (by simpa using (hF h).trans hh)]
      rw [Option.some.injEq] at hfind
      rw [hfind]
    · rw [List.find?_cons_of_neg _ (by simpa using hh)] at hfind
      rw [List.map_cons, if_neg hh, List.find?_cons_of_neg _ (by simpa using hh)]
      exact ih hfind

/-- Unfolding of `updateGoalProgress` when the goal is found. -/
theorem updateGoalProgress_of_find (goals : List FinancialGoal) (goalId : String) (a : ℚ)
    (goal : FinancialGoal) (hfind : goals.find? (fun g => g.id = goalId) = some goal) :
    updateGoalProgress goals goalId a
      = goals.map (fun g => if g.id = goalId then
          { g with
            current_amount := max 0 (goal.current_amount + a),
            is_completed := decide (goal.target_amount ≤ max 0 (goal.current_amount + a)) }
        else g) := by
  simp only [updateGoalProgress, hfind]

/-! ## Claim C8 -/

/-- C8: after applying a signed delta, the goal carrying the updated id
has `currentAmount = max(0, old + Δ)`, an unchanged target, and
`isCompleted ⇔ currentAmount ≥ targetAmount` — both fields come from the
same single update, so the flag is never stale.  Ids are pairwise
distinct (they are database primary keys). -/
theorem C8_progress_mutation (goals : List FinancialGoal) (goalId : String) (Δ : ℚ)
    (goal : FinancialGoal) (hnod : (goals.map FinancialGoal.id).Nodup)
    (hfind : goals.find? (fun g => g.id = goalId) = some goal) :
    ∀ g' ∈ updateGoalProgress goals goalId Δ, g'.id = goalId →
      g'.current_amount = max 0 (goal.current_amount + Δ) ∧
      g'.target_amount = goal.target_amount ∧
      (g'.is_completed = true ↔ g'.target_amount ≤ g'.current_amount) := by
  intro g' hmem hid
  rw [updateGoalProgress_of_find goals goalId Δ goal hfind] at hmem
  rcases mem_update_map goals goalId _ g' hmem hid with ⟨g, hg, hgid, rfl⟩
  rcases find?_unique goals goalId goal hnod hfind g hg hgid with rfl
  exact ⟨rfl, rfl, by simp⟩

/-- Witness for C8: one goal with target 100 and current 5, delta +3; the
updated element has current 8, unchanged target, and an unstale flag. -/
theorem C8_progress_mutation_witness :
    (FinancialGoal.mk "g1" "t" 100 8 false).current_amount
      = max 0 ((FinancialGoal.mk "g1" "t" 100 5 false).current_amount + 3) ∧
    (FinancialGoal.mk "g1" "t" 100 8 false).target_amount
      = (FinancialGoal.mk "g1" "t" 100 5 false).target_amount ∧
    ((FinancialGoal.mk "g1" "t" 100 8 false).is_completed = true ↔
      (FinancialGoal.mk "g1" "t" 100 8 false).target_amount
        ≤ (FinancialGoal.mk "g1" "t" 100 8 false).current_amount) :=
  C8_progress_mutation [FinancialGoal.mk "g1" "t" 100 5 false] "g1" 3
    (FinancialGoal.mk "g1" "t" 100 5 false) (by simp)
    (by with_unfolding_all rfl)
    (FinancialGoal.mk "g1" "t" 100 8 false) (by with_unfolding_all decide) rfl

/-! ## Claim C3 -/

/-- C3 as stated is false: with current 5 and Δ = −10, applying Δ then −Δ
leaves current = 10, not max(0, 5) = 5 — the first application clamps at
zero and the clamp is not undone. -/
theorem C3_counterexample :
    ((updateGoalProgress
        (updateGoalProgress [FinancialGoal.mk "g1" "t" 100 5 false] "g1" (-10))
        "g1" 10).map FinancialGoal.current_amount) = [10] ∧
    max 0 (5 : ℚ) = 5 ∧ (10 : ℚ) ≠ 5 := by
  refine ⟨by with_unfolding_all rfl, by simp, by norm_num⟩

/-- C3 amended: when the first application does not clamp — that is, when
`currentAmount + Δ ≥ 0` — applying Δ then −Δ returns the goal's
`currentAmount` to `max(0, original)`. -/
theorem C3_amended (goals : List FinancialGoal) (goalId : String) (Δ : ℚ)
    (goal : FinancialGoal)
    (hfind : goals.find? (fun g => g.id = goalId) = some goal)
    (_hx : 0 ≤ goal.current_amount) (hΔ : 0 ≤ goal.current_amount + Δ) :
    ∀ g' ∈ updateGoalProgress (updateGoalProgress goals goalId Δ) goalId (-Δ),
      g'.id = goalId → g'.current_amount = max 0 goal.current_amount := by
  have hfind1 : (updateGoalProgress goals goalId Δ).find? (fun g => g.id = goalId)
      = some { goal with
               current_amount := max 0 (goal.current_amount + Δ),
               is_completed := decide (goal.target_amount ≤ max 0 (goal.current_amount + Δ)) } := by
    rw [updateGoalProgress_of_find goals goalId Δ goal hfind]
    exact find?_update_map goals goalId
      (fun g => { g with
                  current_amount := max 0 (goal.current_amount + Δ),
                  is_completed := decide (goal.target_amount ≤ max 0 (goal.current_amount + Δ)) })
      (fun g => rfl) goal hfind
  intro g' hmem hid
  rw [updateGoalProgress_of_find (updateGoalProgress goals goalId Δ) goalId (-Δ) _ hfind1] at hmem
  rcases mem_update_map _ goalId _ g' hmem hid with ⟨g, hg, hgid, rfl⟩
  show max 0 (max 0 (goal.current_amount + Δ) + -Δ) = max 0 goal.current_amount
  rw [max_eq_right hΔ, add_neg_cancel_right]

/-- Witness for C3 amended: current 5, Δ = +3 (no clamping), coming back
to max(0, 5). -/
theorem C3_amended_witness :
    (FinancialGoal.mk "g1" "t" 100 5 false).current_amount
      = max 0 (FinancialGoal.mk "g1" "t" 100 5 false).current_amount :=
  C3_amended [FinancialGoal.mk "g1" "t" 100 5 false] "g1" 3
    (FinancialGoal.mk "g1" "t" 100 5 false) (by with_unfolding_all rfl)
    (by norm_num) (by norm_num)
    (FinancialGoal.mk "g1" "t" 100 5 false) (by with_unfolding_all decide) rfl

/-! ## Category-totals helper lemmas (claim C1) -/

/-- Recursive lookup in the category association list (0 when absent). -/
def lookupTotal : List (String × ℚ) → String → ℚ
  | [], _ => 0
  | p :: rest, c => if p.1 = c then p.2 else lookupTotal rest c

/-- Upserting adds the amount to exactly the upserted category. -/
theorem lookup_upsertTotal (acc : List (String × ℚ)) (c c' : String) (a : ℚ) :
    lookupTotal (upsertTotal acc c a) c' = lookupTotal acc c' + (if c = c' then a else 0) := by
  induction acc with
  | nil =>
    by_cases h : c = c'
    · simp [upsertTotal, lookupTotal, h]
    · simp [upsertTotal, lookupTotal, h]
  | cons p rest ih =>
    obtain ⟨k, v⟩ := p
    by_cases hk : k = c
    · subst hk
      by_cases hkc : k = c'
      · subst hkc
        simp [upsertTotal, lookupTotal]
      · simp [upsertTotal, lookupTotal, hkc]
    · by_cases hkc : k = c'
      · subst hkc
        have hcc : ¬c = k := fun h => hk h.symm
        simp [upsertTotal, lookupTotal, hk, hcc]
      · simp [upsertTotal, lookupTotal, hk, hkc, ih]

/-- Folding the transactions accumulates, per category, the sum of the
matching amounts. -/
theorem lookup_foldl (l : List Transaction) (acc : List (String × ℚ)) (c : String) :
    lookupTotal (l.foldl (fun acc t => upsertTotal acc t.category t.amount) acc) c
      = lookupTotal acc c + ((l.filter (fun t => t.category = c)).map Transaction.amount).sum := by
  induction l generalizing acc with
  | nil => simp
  | cons t rest ih =>
    rw [List.foldl_cons, ih]
    rw [lookup_upsertTotal]
    by_cases h : t.category = c
    · simp [List.filter_cons, h]
      ring
    · simp [List.filter_cons, h]

/-- Keys after an upsert: unchanged when the category is present, extended
by it otherwise. -/
theorem keys_upsertTotal (acc : List (String × ℚ)) (c : String) (a : ℚ) :
    (upsertTotal acc c a).map Prod.fst
      = if c ∈ acc.map Prod.fst then acc.map Prod.fst else acc.map Prod.fst ++ [c] := by
  induction acc with
  | nil => simp [upsertTotal]
  | cons p rest ih =>
    obtain ⟨k, v⟩ := p
    by_cases hk : k = c
    · simp [upsertTotal, hk]
    · have hck : ¬c = k := fun h => hk h.symm
      by_cases hmem : c ∈ rest.map Prod.fst
      · simp [upsertTotal, hk, hck, hmem, ih]
      · simp [upsertTotal, hk, hck, hmem, ih]

/-- Upserting preserves distinctness of the keys. -/
theorem keys_upsertTotal_nodup (acc : List (String × ℚ)) (c : String) (a : ℚ)
    (h : (acc.map Prod.fst).Nodup) : ((upsertTotal acc c a).map Prod.fst).Nodup := by
  rw [keys_upsertTotal]
  by_cases hmem : c ∈ acc.map Prod.fst
  · simpa [hmem] using h
  · simp [hmem, List.nodup_append, h]

/-- The key set after an upsert is the old key set plus the category. -/
theorem keys_upsertTotal_toFinset (acc : List (String × ℚ)) (c : String) (a : ℚ) :
    ((upsertTotal acc c a).map Prod.fst).toFinset = insert c (acc.map Prod.fst).toFinset := by
  rw [keys_upsertTotal]
  by_cases hmem : c ∈ acc.map Prod.fst
  · rw [if_pos hmem, Finset.insert_eq_self.mpr (List.mem_toFinset.mpr hmem)]
  · rw [if_neg hmem]
    simp [List.toFinset_append, Finset.union_comm, Finset.insert_eq]

/-- Folding preserves distinctness of the keys. -/
theorem keys_foldl_nodup (l : List Transaction) (acc : List (String × ℚ))
    (h : (acc.map Prod.fst).Nodup) :
    (((l.foldl (fun acc t => upsertTotal acc t.category t.amount) acc)).map Prod.fst).Nodup := by
  induction l generalizing acc with
  | nil => exact h
  | cons t rest ih => exact ih _ (keys_upsertTotal_nodup acc t.category t.amount h)

/-- The key set after the fold is the old key set plus the categories. -/
theorem keys_foldl_toFinset (l : List Transaction) (acc : List (String × ℚ)) :
    (((l.foldl (fun acc t => upsertTotal acc t.category t.amount) acc)).map Prod.fst).toFinset
      = (acc.map Prod.fst).toFinset ∪ (l.map Transaction.category).toFinset := by
  induction l generalizing acc with
  | nil => simp
  | cons t rest ih =>
    rw [List.foldl_cons, ih, keys_upsertTotal_toFinset, List.map_cons, List.toFinset_cons,
      Finset.insert_union, Finset.union_insert]

/-- With distinct keys, a member pair's value is its lookup. -/
theorem lookup_of_mem (acc : List (String × ℚ)) (p : String × ℚ)
    (hnod : (acc.map Prod.fst).Nodup) (hmem : p ∈ acc) : lookupTotal acc p.1 = p.2 := by
  induction acc with
  | nil => simp at hmem
  | cons q rest ih =>
    simp only [List.map_cons, List.nodup_cons] at hnod
    rcases List.mem_cons.mp hmem with rfl | hrest
    · simp [lookupTotal]
    · by_cases hq : q.1 = p.1
      · exact absurd (List.mem_map.mpr ⟨p, hrest, hq.symm⟩) hnod.1
      · simp only [lookupTotal, if_neg hq]
        exact ih hnod.2 hrest

/-- Every pair of `categoryTotals` carries the sum of the amounts of the
transactions in its category. -/
theorem categoryTotals_amount (l : List Transaction) (p : String × ℚ)
    (hmem : p ∈ categoryTotals l) :
    p.2 = ((l.filter (fun t => t.category = p.1)).map Transaction.amount).sum := by
  have h1 := lookup_of_mem (categoryTotals l) p (keys_foldl_nodup l [] (by simp)) hmem
  have h2 := lookup_foldl l [] p.1
  rw [categoryTotals] at h1
  rw [h1] at h2
  simpa [lookupTotal] using h2

/-- The number of category totals is the number of distinct categories. -/
theorem categoryTotals_length (l : List Transaction) :
    (categoryTotals l).length = ((l.map Transaction.category).toFinset).card := by
  have hkeys := keys_foldl_toFinset l []
  have hnod := keys_foldl_nodup l [] (by simp)
  rw [categoryTotals]
  calc (l.foldl (fun acc t => upsertTotal acc t.category t.amount) []).length
      = ((l.foldl (fun acc t => upsertTotal acc t.category t.amount) []).map Prod.fst).length := by
        rw [List.length_map]
    _ = ((l.foldl (fun acc t => upsertTotal acc t.category t.amount) []).map
          Prod.fst).toFinset.card := (List.toFinset_card_of_nodup hnod).symm
    _ = ((l.map Transaction.category).toFinset).card := by rw [hkeys]; simp

/-- Every pair of `categoryTotals` has a category occurring in the list. -/
theorem categoryTotals_mem_cat (l : List Transaction) (p : String × ℚ)
    (hmem : p ∈ categoryTotals l) : p.1 ∈ l.map Transaction.category := by
  have hk : p.1 ∈ (categoryTotals l).map Prod.fst := List.mem_map.mpr ⟨p, hmem, rfl⟩
  have := keys_foldl_toFinset l []
  rw [categoryTotals] at hk
  have hfin : p.1 ∈ ((l.foldl (fun acc t => upsertTotal acc t.category t.amount) []).map
      Prod.fst).toFinset := List.mem_toFinset.mpr hk
  rw [this] at hfin
  simpa using hfin

/-- The code's month filter coincides with the specification-side filter. -/
theorem monthExpenses_eq_spec (ts : List Transaction) (month : String) :
    monthExpenses ts month = specMonthExpenses ts month :=
  List.filter_congr fun t _ => by simp

/-- Chart entries come from the category-totals association list. -/
theorem chartData_mem (ts : List Transaction) (month : String) (e : CatEntry)
    (he : e ∈ chartData ts month) :
    ∃ p ∈ categoryTotals (monthExpenses ts month), e = CatEntry.mk p.1 p.2 0 := by
  have h1 : e ∈ List.insertionSort entryGe
      ((categoryTotals (monthExpenses ts month)).map (fun p => CatEntry.mk p.1 p.2 0)) :=
    (List.take_sublist 6 _).subset he
  have h2 : e ∈ (categoryTotals (monthExpenses ts month)).map (fun p => CatEntry.mk p.1 p.2 0) :=
    (List.perm_insertionSort entryGe _).mem_iff.mp h1
  rcases List.mem_map.mp h2 with ⟨p, hp, rfl⟩
  exact ⟨p, hp, rfl⟩

/-- The chart's amounts are pairwise descending. -/
theorem chartData_sorted (ts : List Transaction) (month : String) :
    ((chartData ts month).map CatEntry.amount).Pairwise (fun a b => b ≤ a) := by
  have hs : (List.insertionSort entryGe
      ((categoryTotals (monthExpenses ts month)).map (fun p => CatEntry.mk p.1 p.2 0))).Pairwise
        entryGe :=
    List.sorted_insertionSort entryGe _
  have ht : (chartData ts month).Pairwise entryGe :=
    List.Pairwise.sublist (List.take_sublist 6 _) hs
  exact List.pairwise_map.mpr ht

/-- The truncated chart has `min 6 (#distinct categories)` entries. -/
theorem chartData_length (ts : List Transaction) (month : String) :
    (chartData ts month).length
      = min 6 ((monthExpenses ts month).map Transaction.category).toFinset.card := by
  rw [chartData, List.length_take, (List.perm_insertionSort entryGe _).length_eq,
    List.length_map, categoryTotals_length]

/-- Every category occurring in the transactions has a totals pair. -/
theorem mem_cats_pair (l : List Transaction) (c : String)
    (hc : c ∈ l.map Transaction.category) : ∃ p ∈ categoryTotals l, p.1 = c := by
  have hkeys := keys_foldl_toFinset l []
  have hfin : c ∈ ((l.foldl (fun acc t => upsertTotal acc t.category t.amount) []).map
      Prod.fst).toFinset := by
    rw [hkeys]
    simp [hc]
  have hmem : c ∈ (categoryTotals l).map Prod.fst := List.mem_toFinset.mp hfin
  rcases List.mem_map.mp hmem with ⟨p, hp, hpc⟩
  exact ⟨p, hp, hpc⟩

/-- The displayed categories are pairwise distinct: the totals list has
distinct keys, sorting permutes it, and truncation takes a sublist. -/
theorem chartData_cats_nodup (ts : List Transaction) (month : String) :
    ((chartData ts month).map CatEntry.category).Nodup := by
  have hkeys : ((categoryTotals (monthExpenses ts month)).map Prod.fst).Nodup :=
    keys_foldl_nodup _ [] (by simp)
  have hentries : (((categoryTotals (monthExpenses ts month)).map
      (fun q => CatEntry.mk q.1 q.2 0)).map CatEntry.category).Nodup := by
    rw [List.map_map]
    exact hkeys
  have hsort : ((List.insertionSort entryGe ((categoryTotals (monthExpenses ts month)).map
      (fun q => CatEntry.mk q.1 q.2 0))).map CatEntry.category).Nodup :=
    ((List.perm_insertionSort entryGe _).map CatEntry.category).nodup_iff.mpr hentries
  exact List.Nodup.sublist (List.Sublist.map CatEntry.category (List.take_sublist 6 _)) hsort

/-- In a descending list, every kept (first-6) element dominates every
dropped element. -/
theorem sorted_take_drop_le (S : List CatEntry) (hpw : S.Pairwise entryGe) (x y : CatEntry)
    (hx : x ∈ S.take 6) (hy : y ∈ S.drop 6) : y.amount ≤ x.amount := by
  rw [← List.take_append_drop 6 S] at hpw
  exact (List.pairwise_append.mp hpw).2.2 x hx y hy

/-- The truncation keeps the top entries: any category total whose
category is not displayed is at most every displayed amount. -/
theorem chartData_top6 (ts : List Transaction) (month : String) (e : CatEntry)
    (he : e ∈ chartData ts month) (p : String × ℚ)
    (hp : p ∈ categoryTotals (monthExpenses ts month))
    (hnotin : p.1 ∉ (chartData ts month).map CatEntry.category) :
    p.2 ≤ e.amount := by
  have hEp : CatEntry.mk p.1 p.2 0 ∈ List.insertionSort entryGe
      ((categoryTotals (monthExpenses ts month)).map (fun q => CatEntry.mk q.1 q.2 0)) :=
    (List.perm_insertionSort entryGe _).mem_iff.mpr (List.mem_map.mpr ⟨p, hp, rfl⟩)
  have hEpNot : CatEntry.mk p.1 p.2 0 ∉ chartData ts month := fun hmem =>
    hnotin (List.mem_map.mpr ⟨_, hmem, rfl⟩)
  have hsplit : CatEntry.mk p.1 p.2 0 ∈ (List.insertionSort entryGe
        ((categoryTotals (monthExpenses ts month)).map (fun q => CatEntry.mk q.1 q.2 0))).take 6
      ∨ CatEntry.mk p.1 p.2 0 ∈ (List.insertionSort entryGe
        ((categoryTotals (monthExpenses ts month)).map (fun q => CatEntry.mk q.1 q.2 0))).drop 6 := by
    refine List.mem_append.mp ?_
    rw [List.take_append_drop]
    exact hEp
  rcases hsplit with h | h
  · exact absurd h hEpNot
  · exact sorted_take_drop_le _ (List.sorted_insertionSort entryGe _) e
      (CatEntry.mk p.1 p.2 0) he h

/-! ## Claim C1 -/

/-- C1 amended: the breakdown lists one entry per category of the month's
expense transactions — each displayed category appears exactly once and
carries that category's expense total — sorted descending by amount and
truncated to the top 6: every month category that is not displayed has a
total at most every displayed entry's amount.  Each entry is annotated
with `percentage = toFixed1(amount / displayedTotal * 100)` where
`displayedTotal` is the sum of the truncated entries' amounts (0 when
that sum is not positive). -/
theorem C1_amended (ts : List Transaction) (month : String) :
    (dataWithPercentages ts month).length
      = min 6 ((specMonthExpenses ts month).map Transaction.category).toFinset.card ∧
    (∀ e ∈ dataWithPercentages ts month,
      e.category ∈ (specMonthExpenses ts month).map Transaction.category ∧
      e.amount = specCatTotal ts month e.category) ∧
    ((dataWithPercentages ts month).map CatEntry.amount).Pairwise (fun a b => b ≤ a) ∧
    (∀ e ∈ dataWithPercentages ts month,
      e.percentage = if 0 < ((chartData ts month).map CatEntry.amount).sum
        then toFixed1 (e.amount / ((chartData ts month).map CatEntry.amount).sum * 100)
        else 0) ∧
    ((dataWithPercentages ts month).map CatEntry.category).Nodup ∧
    (∀ e ∈ dataWithPercentages ts month,
      ∀ c ∈ (specMonthExpenses ts month).map Transaction.category,
        c ∉ (dataWithPercentages ts month).map CatEntry.category →
          specCatTotal ts month c ≤ e.amount) := by
  have hmapeq : dataWithPercentages ts month
      = (chartData ts month).map (fun item =>
          { item with percentage := if 0 < totalAmount (chartData ts month)
              then toFixed1 (item.amount / totalAmount (chartData ts month) * 100) else 0 }) :=
    rfl
  have htot : totalAmount (chartData ts month)
      = ((chartData ts month).map CatEntry.amount).sum := by
    rw [totalAmount, foldl_entry_amount, zero_add]
  have hcateq : (dataWithPercentages ts month).map CatEntry.category
      = (chartData ts month).map CatEntry.category := by
    rw [hmapeq, List.map_map]
    rfl
  refine ⟨?_, ?_, ?_, ?_, ?_, ?_⟩
  · rw [hmapeq, List.length_map, chartData_length, monthExpenses_eq_spec]
  · intro e he
    rw [hmapeq] at he
    rcases List.mem_map.mp he with ⟨e', he', rfl⟩
    rcases chartData_mem ts month e' he' with ⟨p, hp, rfl⟩
    constructor
    · have hc := categoryTotals_mem_cat _ p hp
      rw [monthExpenses_eq_spec] at hc
      exact hc
    · have ha := categoryTotals_amount _ p hp
      rw [specCatTotal, ← monthExpenses_eq_spec]
      exact ha
  · rw [hmapeq, List.map_map]
    exact chartData_sorted ts month
  · intro e he
    rw [hmapeq] at he
    rcases List.mem_map.mp he with ⟨e', he', rfl⟩
    show (if 0 < totalAmount (chartData ts month)
        then toFixed1 (e'.amount / totalAmount (chartData ts month) * 100) else 0) = _
    rw [htot]
  · rw [hcateq]
    exact chartData_cats_nodup ts month
  · intro e he c hc hcnot
    rw [hmapeq] at he
    rcases List.mem_map.mp he with ⟨e', he', rfl⟩
    rw [← monthExpenses_eq_spec] at hc
    rw [hcateq] at hcnot
    rcases mem_cats_pair _ c hc with ⟨p, hp, rfl⟩
    have hle := chartData_top6 ts month e' he' p hp hcnot
    have hval : p.2 = specCatTotal ts month p.1 := by
      rw [specCatTotal, ← monthExpenses_eq_spec]
      exact categoryTotals_amount _ p hp
    rw [← hval]
    exact hle

/-- Seven expense categories in one month, with pairwise-distinct
amounts summing to 280 while the six displayed entries sum to 270. -/
def cexTransactions : List Transaction :=
  [Transaction.mk "2024-05-01" "c1" 70 TxType.expense,
   Transaction.mk "2024-05-02" "c2" 60 TxType.expense,
   Transaction.mk "2024-05-03" "c3" 50 TxType.expense,
   Transaction.mk "2024-05-04" "c4" 40 TxType.expense,
   Transaction.mk "2024-05-05" "c5" 30 TxType.expense,
   Transaction.mk "2024-05-06" "c6" 20 TxType.expense,
   Transaction.mk "2024-05-07" "c7" 10 TxType.expense]

set_option maxRecDepth 4000 in
/-- C1 as stated is false: with seven categories the month's total
expenses are 280, but the code divides by the truncated top-6 total (270),
so the top entry (amount 70) is annotated 25.9, not `70 / 280 * 100 =
25`. -/
theorem C1_counterexample :
    (dataWithPercentages cexTransactions "2024-05").head?.map CatEntry.amount = some 70 ∧
    (dataWithPercentages cexTransactions "2024-05").head?.map CatEntry.percentage
      = some (259 / 10) ∧
    specPeriodExpenses "2024-05" cexTransactions = 280 ∧
    (259 / 10 : ℚ) ≠ 70 / 280 * 100 := by
  refine ⟨by with_unfolding_all rfl, by with_unfolding_all rfl,
    by with_unfolding_all rfl, by norm_num⟩

set_option maxRecDepth 8000 in
/-- Witness for C1 amended: a single food expense of 1000 produces the
entry `(food, 1000, 100)` whose amount is the category's total. -/
theorem C1_amended_witness :
    (CatEntry.mk "food" 1000 100).amount
      = specCatTotal [Transaction.mk "2024-05-01" "food" 1000 TxType.expense] "2024-05"
          (CatEntry.mk "food" 1000 100).category := by
  have h := (C1_amended [Transaction.mk "2024-05-01" "food" 1000 TxType.expense] "2024-05").2.1
  have hm : CatEntry.mk "food" 1000 100 ∈
      dataWithPercentages [Transaction.mk "2024-05-01" "food" 1000 TxType.expense] "2024-05" := by
    with_unfolding_all decide
  exact (h _ hm).2

end Wallet
